import Mathlib

/-! Shallow embedding of the Domino mixture model (src/domino/domino.py) over an
abstract linearly ordered field `α`.  Floating point arithmetic is idealised as
exact field arithmetic; the transcendental routines `np.exp` / `np.log` and the
library code the estimator delegates to (the sklearn Gaussian internals, the
numpy random stream, KMeans) enter as oracle fields of a context `Ctx`, so that
every definition stays executable and every algorithmic decision made by the
repository's own code is translated directly. -/

open BigOperators

namespace Domino

/-- Covariance structure tags accepted by the estimator (the four keys of the
dispatch dictionary in `_estimate_parameters`). -/
inductive CovarianceType
  | full | tied | diag | spherical
deriving DecidableEq

/-- Initialization strategies recognised by `_initialize_parameters`:
"kmeans", "random", "error", or any unrecognised tag. -/
inductive InitMethod
  | kmeans | rand | err | unknown
deriving DecidableEq

/-- The Python exception classes the embedding distinguishes. -/
inductive PyErr
  | attributeErr     -- AttributeError (e.g. `y_hat.shape` with `y_hat = None`)
  | typeErr          -- TypeError (e.g. `np.dot` with a `None` operand)
  | valueConfig      -- ValueError raised by configuration checks
  | valueValidation  -- ValueError raised by input validation (`_check_X` etc.)
  | valueBroadcast   -- ValueError raised by a numpy shape/broadcast mismatch
  | unboundLocal     -- UnboundLocalError (`best_params` never assigned)
deriving DecidableEq

/-- A dense numeric matrix with `n` rows and `m` columns, row index first. -/
abbrev Mat (n m : ℕ) (α : Type) := Fin n → Fin m → α

variable {α : Type} [LinearOrderedField α] {μ : Type}
variable {d k n m c ch : ℕ}

/-- Oracles for everything the estimator calls outside of the repository:
`np.exp`/`np.log` (and `scipy.special.logsumexp`, expressed through them),
machine epsilon, the uniform draws of the numpy random state (one matrix per
restart index), the labels produced by `sklearn.cluster.KMeans` per restart,
and the sklearn Gaussian helpers (`_estimate_gaussian_covariances_*`,
`_compute_precision_cholesky`, `scipy.linalg.cholesky`,
`_estimate_log_gaussian_prob`, and the `_check_precisions` validation of a
user-supplied `precisions_init`). -/
structure Ctx (α : Type) (μ : Type) (d k : ℕ) where
  ex : α → α
  lg : α → α
  eps : α
  rand : ℕ → (nn : ℕ) → Mat nn k α
  kmeansLabels : ℕ → (nn : ℕ) → Fin nn → Fin k
  estimateGaussCov :
    CovarianceType → (nn : ℕ) → Mat nn k α → Mat nn d α → (Fin k → α) → Mat k d α → α → μ
  computePrecisionCholesky : μ → CovarianceType → μ
  choleskyLower : μ → μ
  estimateLogProb : (mm : ℕ) → Mat mm d α → Mat k d α → μ → CovarianceType → Mat mm k α
  checkPrecisions : μ → CovarianceType → Bool

/-- The constructor arguments of `DominoMixture` that the fitting and
prediction paths read (`GaussianMixture.__init__` plus
`weight_y_log_likelihood`). -/
structure Cfg (α : Type) (μ : Type) (d k : ℕ) where
  covariance_type : CovarianceType
  init_params : InitMethod
  weight_y_log_likelihood : α
  reg_covar : α
  tol : α
  max_iter : ℕ
  n_init : ℕ
  weights_init : Option (Fin k → α)
  means_init : Option (Mat k d α)
  precisions_init : Option μ

/-- The fitted parameter tuple held by the estimator: exactly the attributes
read and written by `_get_parameters` / `_set_parameters`. -/
structure MixState (α : Type) (μ : Type) (d k c ch : ℕ) where
  weights_ : Fin k → α
  means_ : Mat k d α
  covariances_ : μ
  y_probs : Mat k c α
  y_hat_probs : Mat k ch α
  precisions_cholesky_ : μ
deriving DecidableEq

/-! ## The parameter-estimation kernel (`_estimate_parameters`) -/

/-- Model of `_estimate_parameters(X, y, y_hat, resp, reg_covar, covariance_type)`:
effective counts `nk`, means, covariances (dispatched to the external sklearn
routine selected by the covariance tag), and the two categorical probability
tables.  Returns the tuple `(nk, means, covariances, y_probs, y_hat_probs)`. -/
def estimateParameters (ctx : Ctx α μ d k) (X : Mat n d α) (y : Mat n c α)
    (y_hat : Mat n ch α) (resp : Mat n k α) (reg_covar : α)
    (covariance_type : CovarianceType) :
    (Fin k → α) × Mat k d α × μ × Mat k c α × Mat k ch α :=
  let nk : Fin k → α := fun j => (∑ i, resp i j) + 10 * ctx.eps
  let means : Mat k d α := fun j f => (∑ i, resp i j * X i f) / nk j
  let covariances := ctx.estimateGaussCov covariance_type n resp X nk means reg_covar
  let y_probs : Mat k c α := fun j l => (∑ i, resp i j * y i l) / nk j
  let y_hat_probs : Mat k ch α := fun j l => (∑ i, resp i j * y_hat i l) / nk j
  (nk, means, covariances, y_probs, y_hat_probs)

/-! ## Label preprocessing (`_preprocess_ys`) -/

/-- The raw `y_hat` argument: either a one-dimensional vector of
positive-class probabilities or an `(n, w)` probability matrix. -/
inductive RawYHat (α : Type) (n : ℕ)
  | vec : (Fin n → α) → RawYHat α n
  | mat : (w : ℕ) → Mat n w α → RawYHat α n

/-- Model of `np.max(y)` over the integer label vector. -/
def maxLabel (y : Fin n → ℕ) : ℕ := Finset.univ.sup y

/-- Number of columns produced by `label_binarize(y, classes=0..max(y))`
followed by the binary-case expansion: `max(y)+1` classes, but at least two
columns because a single indicator column is expanded to `[1-p, p]`. -/
def binWidth (y : Fin n → ℕ) : ℕ := max (maxLabel y + 1) 2

/-- Model of `label_binarize` plus the binary expansion of `_preprocess_ys`: with at
most two classes the single indicator column `p = [y == 1]` becomes the
two-column matrix `[1-p, p]`; with three or more classes a one-hot matrix. -/
def binY (y : Fin n → ℕ) : Mat n (binWidth y) α :=
  if maxLabel y + 1 ≤ 2 then
    fun i j => if (j : ℕ) = 1 then (if y i = 1 then 1 else 0)
               else 1 - (if y i = 1 then 1 else 0)
  else fun i j => if y i = (j : ℕ) then 1 else 0

/-- Column count of the preprocessed `y_hat`: a vector is expanded to two
columns, a matrix keeps its width. -/
def yhWidth : RawYHat α n → ℕ
  | .vec _ => 2
  | .mat w _ => w

/-- The `y_hat` branch of `_preprocess_ys`: a one-dimensional vector `p`
becomes `np.array([1 - p, p]).T`; a matrix is returned unchanged. -/
def yhExpand : (yh : RawYHat α n) → Mat n (yhWidth yh) α
  | .vec p => fun i j => if (j : ℕ) = 1 then p i else 1 - p i
  | .mat _ mm => mm

/-- Model of `_preprocess_ys(y, y_hat)`.  Both transformations are guarded by
`if y is not None:`; in particular the `y_hat` vector expansion is *also*
guarded by `y is not None` (source line 336), and with `y` present but
`y_hat = None` the attribute access `y_hat.shape` raises AttributeError. -/
def preprocessYs (y? : Option (Fin n → ℕ)) (yh? : Option (RawYHat α n)) :
    Except PyErr (Option ((w : ℕ) × Mat n w α) × Option (RawYHat α n)) :=
  match y? with
  | none => .ok (none, yh?)
  | some y =>
    match yh? with
    | none => .error .attributeErr
    | some yh => .ok (some ⟨binWidth y, binY y⟩, some (.mat (yhWidth yh) (yhExpand yh)))

/-! ## Parameter initialization (`_initialize_parameters` / `_initialize`) -/

/-- Shared body of `_initialize` and `_m_step`: estimate all parameters from a
responsibility matrix, divide the weights by the sample count, and recompute
the precision Cholesky factors. -/
def stateOfResp (ctx : Ctx α μ d k) (cfg : Cfg α μ d k) (X : Mat n d α)
    (y : Mat n c α) (yh : Mat n ch α) (resp : Mat n k α) : MixState α μ d k c ch :=
  let p := estimateParameters ctx X y yh resp cfg.reg_covar cfg.covariance_type
  { weights_ := fun j => p.1 j / (n : α)
    means_ := p.2.1
    covariances_ := p.2.2.1
    y_probs := p.2.2.2.1
    y_hat_probs := p.2.2.2.2
    precisions_cholesky_ := ctx.computePrecisionCholesky p.2.2.1 cfg.covariance_type }

/-- Model of `_initialize(X, y, y_hat, resp)`: parameters from the responsibilities,
with the `weights_init` / `means_init` / `precisions_init` overrides applied.
(When `precisions_init` is given the source leaves `covariances_` unset; the
claims under study all use `precisions_init = None`, so the computed
covariances are kept here.) -/
def initFromResp (ctx : Ctx α μ d k) (cfg : Cfg α μ d k) (X : Mat n d α)
    (y : Mat n c α) (yh : Mat n ch α) (resp : Mat n k α) : MixState α μ d k c ch :=
  let base := stateOfResp ctx cfg X y yh resp
  { weights_ := match cfg.weights_init with | none => base.weights_ | some w => w
    means_ := match cfg.means_init with | none => base.means_ | some mns => mns
    covariances_ := base.covariances_
    y_probs := base.y_probs
    y_hat_probs := base.y_hat_probs
    precisions_cholesky_ :=
      match cfg.precisions_init with
      | none => base.precisions_cholesky_
      | some pinit =>
        match cfg.covariance_type with
        | .full => ctx.choleskyLower pinit
        | .tied => ctx.choleskyLower pinit
        | _ => pinit }

/-- Row normalization `resp /= resp.sum(axis=1)[:, np.newaxis]`. -/
def rowNormalize (r : Mat n k α) : Mat n k α := fun i j => r i j / ∑ l, r i l

/-- Entry of the flattened outer product
`np.matmul(y[:, :, None], y_hat[:, None, :]).reshape(len(y), -1)`:
flat column `a * ch + b` holds `y i a * y_hat i b`. -/
def outerResp (y : Mat n c α) (yh : Mat n ch α) (i : Fin n) (j : ℕ) : α :=
  if h : j < c * ch then
    have hch : 0 < ch := by
      rcases Nat.eq_zero_or_pos ch with h0 | h0
      · subst h0; simp at h
      · exact h0
    y i ⟨j / ch, by
      have := (Nat.div_lt_iff_lt_mul hch).2 (by omega : j < c * ch)
      omega⟩ * yh i ⟨j % ch, Nat.mod_lt _ hch⟩
  else 0

/-- Number of copies of the outer-product block concatenated by the "error"
initialization:
`int(n_components / num_classes ** 2) + (n_components % num_classes ** 2 > 0)`
— note the count uses `num_classes ** 2` (the square of the width of the
preprocessed `y`), not the actual block width `c * ch`. -/
def errorInitCopies (kk cc : ℕ) : ℕ :=
  kk / (cc * cc) + (if kk % (cc * cc) > 0 then 1 else 0)

/-- Entries of the "error" initialization responsibilities when the tiled
block covers all `n_components` columns: column `j` of the
concatenate-then-truncate `np.concatenate([resp] * copies, axis=1)[:, :k]`
is block column `j % (c * ch)` (valid for `j < copies * (c * ch)`, which the
caller `initRespParams` checks); then row-normalize, add the restart's
uniform draw, and row-normalize again. -/
def errorInitResp (ctx : Ctx α μ d k) (t : ℕ) (y : Mat n c α) (yh : Mat n ch α) :
    Mat n k α :=
  let resp0 : Mat n k α := fun i j => outerResp y yh i ((j : ℕ) % (c * ch))
  let resp1 := rowNormalize resp0
  rowNormalize (fun i j => resp1 i j + ctx.rand t n i j)

/-- Model of `_initialize_parameters(X, y, y_hat, random_state)` for restart `t`:
pick the initial responsibilities according to the configured strategy, then
initialise the parameters from them.  The "error" strategy first checks
`n_components ≥ num_classes ** 2` (`num_classes` being the column count of
the preprocessed `y`); after that, when the `ceil(k / num_classes ** 2)`
concatenated copies of the width-`c * ch` outer-product block still fall
short of `n_components` columns (possible when `y_hat` has fewer columns
than `y`), the truncated tile has fewer columns than `n_components` and the
subsequent in-place `resp += random_state.rand(n_samples, n_components)`
raises a broadcast ValueError. -/
def initRespParams (ctx : Ctx α μ d k) (cfg : Cfg α μ d k) (t : ℕ) (X : Mat n d α)
    (y : Mat n c α) (yh : Mat n ch α) : Except PyErr (MixState α μ d k c ch) :=
  match cfg.init_params with
  | .kmeans =>
      .ok (initFromResp ctx cfg X y yh
        (fun i j => if ctx.kmeansLabels t n i = j then 1 else 0))
  | .rand => .ok (initFromResp ctx cfg X y yh (rowNormalize (ctx.rand t n)))
  | .err =>
      if k < c * c then .error .valueConfig
      else
        if k ≤ errorInitCopies k c * (c * ch) then
          .ok (initFromResp ctx cfg X y yh (errorInitResp ctx t y yh))
        else .error .valueBroadcast
  | .unknown => .error .valueConfig

/-! ## E-step / M-step -/

/-- Model of `_estimate_y_log_prob(y)`: `np.log(np.dot(y, self.y_probs.T) + eps)`. -/
def estimateYLogProb (ctx : Ctx α μ d k) (st : MixState α μ d k c ch)
    (y : Mat m c α) : Mat m k α :=
  fun i j => ctx.lg ((∑ l, y i l * st.y_probs j l) + ctx.eps)

/-- Model of `_estimate_y_hat_log_prob(y_hat)`: `np.log(np.dot(y_hat, self.y_hat_probs.T) + eps)`. -/
def estimateYHatLogProb (ctx : Ctx α μ d k) (st : MixState α μ d k c ch)
    (y_hat : Mat m ch α) : Mat m k α :=
  fun i j => ctx.lg ((∑ l, y_hat i l * st.y_hat_probs j l) + ctx.eps)

/-- Model of `_estimate_weighted_log_prob(X, y, y_hat)`: Gaussian log-probabilities plus
log-weights, plus — when present — each label term multiplied by
`weight_y_log_likelihood` (the same weight is applied to both terms). -/
def estimateWeightedLogProb (ctx : Ctx α μ d k) (cfg : Cfg α μ d k)
    (st : MixState α μ d k c ch) (X : Mat m d α)
    (y? : Option (Mat m c α)) (yh? : Option (Mat m ch α)) : Mat m k α :=
  let base : Mat m k α := fun i j =>
    ctx.estimateLogProb m X st.means_ st.precisions_cholesky_ cfg.covariance_type i j
      + ctx.lg (st.weights_ j)
  let withY : Mat m k α :=
    match y? with
    | none => base
    | some y => fun i j => base i j + estimateYLogProb ctx st y i j * cfg.weight_y_log_likelihood
  match yh? with
  | none => withY
  | some yh => fun i j => withY i j + estimateYHatLogProb ctx st yh i j * cfg.weight_y_log_likelihood

/-- Model of `_estimate_log_prob_resp(X, y, y_hat)`: per-sample `logsumexp` of the
weighted log-probabilities, and log-responsibilities obtained by subtracting
it.  Returns `(log_prob_norm, log_resp)`. -/
def estimateLogProbResp (ctx : Ctx α μ d k) (cfg : Cfg α μ d k)
    (st : MixState α μ d k c ch) (X : Mat m d α)
    (y? : Option (Mat m c α)) (yh? : Option (Mat m ch α)) :
    (Fin m → α) × Mat m k α :=
  let wlp := estimateWeightedLogProb ctx cfg st X y? yh?
  let log_prob_norm : Fin m → α := fun i => ctx.lg (∑ j, ctx.ex (wlp i j))
  (log_prob_norm, fun i j => wlp i j - log_prob_norm i)

/-- Model of `_e_step(X, y, y_hat)`: mean of the per-sample log-likelihoods together
with the log-responsibilities. -/
def eStep (ctx : Ctx α μ d k) (cfg : Cfg α μ d k) (st : MixState α μ d k c ch)
    (X : Mat n d α) (y : Mat n c α) (yh : Mat n ch α) : α × Mat n k α :=
  let p := estimateLogProbResp ctx cfg st X (some y) (some yh)
  ((∑ i, p.1 i) / (n : α), p.2)

/-- Model of `_m_step(X, y, y_hat, log_resp)`: exponentiate the log-responsibilities
and re-estimate every parameter. -/
def mStep (ctx : Ctx α μ d k) (cfg : Cfg α μ d k) (X : Mat n d α)
    (y : Mat n c α) (yh : Mat n ch α) (log_resp : Mat n k α) :
    MixState α μ d k c ch :=
  stateOfResp ctx cfg X y yh (fun i j => ctx.ex (log_resp i j))

/-! ## The EM loop of `fit_predict` -/

/-- The convergence test `abs(change) < tol` at the end of an EM iteration.
`none` encodes the initial `-np.infty` lower bound: the change is then
`+infinity` and the test is false for every finite tolerance. -/
def convergenceBreak (prev : Option α) (cur : α) (tol : α) : Bool :=
  match prev with
  | none => false
  | some p => |cur - p| < tol

/-- Outcome of the inner EM loop of one restart. -/
structure EMOut (α : Type) (μ : Type) (d k c ch : ℕ) where
  state : MixState α μ d k c ch
  lb : Option α          -- `lower_bound` (`none` = `-np.infty`)
  converged : Bool
  n_iter : ℕ             -- index of the last executed iteration
deriving DecidableEq

/-- The inner loop `for n_iter in range(1, max_iter + 1)` of `fit_predict`:
E-step, M-step, lower-bound update, and break once the absolute change drops
below the tolerance.  `it` counts the iterations already executed. -/
def emRun (ctx : Ctx α μ d k) (cfg : Cfg α μ d k) (X : Mat n d α)
    (y : Mat n c α) (yh : Mat n ch α) :
    ℕ → ℕ → MixState α μ d k c ch → Option α → EMOut α μ d k c ch
  | 0, it, st, lb => ⟨st, lb, false, it⟩
  | fuel + 1, it, st, lb =>
    if convergenceBreak lb (eStep ctx cfg st X y yh).1 cfg.tol then
      ⟨mStep ctx cfg X y yh (eStep ctx cfg st X y yh).2,
        some (eStep ctx cfg st X y yh).1, true, it + 1⟩
    else emRun ctx cfg X y yh fuel (it + 1)
      (mStep ctx cfg X y yh (eStep ctx cfg st X y yh).2)
      (some (eStep ctx cfg st X y yh).1)

/-- Model of `lower_bound > max_lower_bound`, with `none` encoding `-np.infty`. -/
def lbImproves (lb maxLB : Option α) : Bool :=
  match lb, maxLB with
  | none, _ => false
  | some _, none => true
  | some a, some b => b < a

/-- The restart loop `for init in range(n_init)`: initialise, run EM, fold the
convergence flag (never reset between restarts), and snapshot the best
parameters when the lower bound strictly improves. -/
def restartLoop (ctx : Ctx α μ d k) (cfg : Cfg α μ d k) (X : Mat n d α)
    (y : Mat n c α) (yh : Mat n ch α) :
    ℕ → ℕ → Bool → Option α → Option (MixState α μ d k c ch × ℕ) →
    Except PyErr (Bool × Option α × Option (MixState α μ d k c ch × ℕ))
  | _, 0, conv, maxLB, best => .ok (conv, maxLB, best)
  | t, fuel + 1, conv, maxLB, best =>
    match initRespParams ctx cfg t X y yh with
    | .error e => .error e
    | .ok st0 =>
      let eo := emRun ctx cfg X y yh cfg.max_iter 0 st0 none
      if lbImproves eo.lb maxLB then
        restartLoop ctx cfg X y yh (t + 1) fuel (conv || eo.converged) eo.lb
          (some (eo.state, eo.n_iter))
      else
        restartLoop ctx cfg X y yh (t + 1) fuel (conv || eo.converged) maxLB best

/-! ## `fit_predict` and `predict_proba` -/

/-- One step of the `np.argmax` scan: keep the earlier index on ties. -/
def argmaxStep (v : Fin k → α) (acc : Option (Fin k)) (j : Fin k) : Option (Fin k) :=
  match acc with
  | none => some j
  | some b => if v b < v j then some j else some b

/-- First index attaining the maximum of `v`, as `np.argmax` computes it. -/
def npArgmaxO (v : Fin k → α) : Option (Fin k) :=
  (List.finRange k).foldl (argmaxStep v) none

/-- Model of `np.argmax` as a plain natural number (0 on an empty axis). -/
def npArgmax (v : Fin k → α) : ℕ := ((npArgmaxO v).map Fin.val).getD 0

/-- Model of `_check_X(X, n_components, ensure_min_samples=2)`: at least two samples
and at least `n_components` samples. -/
abbrev checkXOk (nn kk : ℕ) : Prop := 2 ≤ nn ∧ kk ≤ nn

/-- Model of `BaseMixture._check_initial_parameters` together with the
`GaussianMixture._check_parameters` it calls: `n_components ≥ 1`, `tol ≥ 0`,
`n_init ≥ 1`, `max_iter ≥ 1`, `reg_covar ≥ 0` (sklearn raises ValueError
otherwise); the covariance tag must be one of the four known ones (enforced
here by the enum); a user-supplied `weights_init` must have entries in
`[0, 1]` summing to 1 (`_check_weights`); `means_init` has only its shape
checked, which the types enforce; a user-supplied `precisions_init` is
validated by the external `_check_precisions`, an oracle of the context. -/
def checkInitialParams (ctx : Ctx α μ d k) (cfg : Cfg α μ d k) : Bool :=
  decide (1 ≤ k) && decide (0 ≤ cfg.tol) && decide (1 ≤ cfg.n_init) &&
  decide (1 ≤ cfg.max_iter) && decide (0 ≤ cfg.reg_covar) &&
  (match cfg.weights_init with
    | none => true
    | some w => decide ((∀ j, 0 ≤ w j ∧ w j ≤ 1) ∧ ∑ j, w j = 1)) &&
  (match cfg.precisions_init with
    | none => true
    | some pinit => ctx.checkPrecisions pinit cfg.covariance_type)

/-- Result of `fit_predict`: labels, the restored best parameter tuple, and
the bookkeeping attributes `converged_`, `n_iter_`, `lower_bound_`. -/
structure FitOut (α : Type) (μ : Type) (n d k c ch : ℕ) where
  labels : Fin n → ℕ
  state : MixState α μ d k c ch
  converged_ : Bool
  n_iter_ : ℕ
  lower_bound_ : Option α
deriving DecidableEq

/-- Model of `fit_predict(X, y, y_hat)`: preprocess the labels (with both arguments
present `_preprocess_ys` always succeeds and yields `binY` / `yhExpand`; see
`preprocessYs`), validate, run all restarts, restore the best parameters, and
perform the mandatory final E-step whose row-wise argmax is returned. -/
def fitPredict (ctx : Ctx α μ d k) (cfg : Cfg α μ d k) (X : Mat n d α)
    (yraw : Fin n → ℕ) (yhraw : RawYHat α n) :
    Except PyErr (FitOut α μ n d k (binWidth yraw) (yhWidth yhraw)) :=
  if checkXOk n k then
    if checkInitialParams ctx cfg then
      match restartLoop ctx cfg X (binY yraw) (yhExpand yhraw) 0 cfg.n_init false none none with
      | .error e => .error e
      | .ok (conv, maxLB, some best) =>
        .ok ⟨fun i => npArgmax
              (fun j => (eStep ctx cfg best.1 X (binY yraw) (yhExpand yhraw)).2 i j),
            best.1, conv, best.2, maxLB⟩
      | .ok (_, _, none) => .error .unboundLocal
    else .error .valueConfig
  else .error .valueValidation

/-- Reindexing of a matrix along a width equality (`castMat rfl` is the
identity). -/
def castMat {w w' : ℕ} (h : w' = w) (mm : Mat m w' α) : Mat m w α :=
  fun i j => mm i ⟨(j : ℕ), h ▸ j.isLt⟩

/-- The responsibility matrix computed by `predict_proba` once the inputs are
preprocessed: `np.exp(log_resp)`. -/
def predictProbaCore (ctx : Ctx α μ d k) (cfg : Cfg α μ d k)
    (st : MixState α μ d k c ch) (X : Mat m d α)
    (y? : Option (Mat m c α)) (yh? : Option (Mat m ch α)) : Mat m k α :=
  fun i j => ctx.ex ((estimateLogProbResp ctx cfg st X y? yh?).2 i j)

/-- Model of `predict_proba(X, y, y_hat)`: preprocess, check the estimator is fitted
(guaranteed here by the presence of `st`), validate `X`
(`_check_X(X, None, n_features)` needs at least one sample), align the class
counts of the preprocessed side channels with the fitted tables (a mismatch —
including an unexpanded one-dimensional `y_hat` — makes the later `np.dot`
fail), and return the exponentiated log-responsibilities. -/
def predictProba (ctx : Ctx α μ d k) (cfg : Cfg α μ d k)
    (st : MixState α μ d k c ch) (X : Mat m d α)
    (y? : Option (Fin m → ℕ)) (yh? : Option (RawYHat α m)) :
    Except PyErr (Mat m k α) :=
  match preprocessYs (α := α) y? yh? with
  | .error e => .error e
  | .ok (py, pyh) =>
    if 1 ≤ m then
      match py, pyh with
      | none, none => .ok (predictProbaCore ctx cfg st X none none)
      | none, some (.vec _) => .error .valueValidation
      | none, some (.mat w mm) =>
        if h : w = ch then .ok (predictProbaCore ctx cfg st X none (some (castMat h mm)))
        else .error .valueValidation
      | some _, none => .error .typeErr
      | some _, some (.vec _) => .error .valueValidation
      | some ⟨w, ym⟩, some (.mat w' mm) =>
        if hy : w = c then
          if hh : w' = ch then
            .ok (predictProbaCore ctx cfg st X (some (castMat hy ym)) (some (castMat hh mm)))
          else .error .valueValidation
        else .error .valueValidation
    else .error .valueValidation

/-! ## Reference model: the ordinary Gaussian mixture (for the weight-zero
refinement claim) -/

/-- Modelled from the spec: the fitted state of an "ordinary embedding-only
Gaussian mixture" (sklearn's `GaussianMixture`, which is not part of src/):
weights, means, covariances and precision Cholesky factors, without the two
categorical tables. -/
structure GmmState (α : Type) (μ : Type) (d k : ℕ) where
  weights_ : Fin k → α
  means_ : Mat k d α
  covariances_ : μ
  precisions_cholesky_ : μ
deriving DecidableEq

/-- The Gaussian projection of a Domino mixture state. -/
def gaussPart (st : MixState α μ d k c ch) : GmmState α μ d k :=
  ⟨st.weights_, st.means_, st.covariances_, st.precisions_cholesky_⟩

/-- Modelled from the spec: `_estimate_gaussian_parameters` followed by the
weight normalisation and Cholesky recomputation of the plain Gaussian-mixture
M-step (shared with its initialisation). -/
def gmmStateOfResp (ctx : Ctx α μ d k) (cfg : Cfg α μ d k) (X : Mat n d α)
    (resp : Mat n k α) : GmmState α μ d k :=
  let nk : Fin k → α := fun j => (∑ i, resp i j) + 10 * ctx.eps
  let means : Mat k d α := fun j f => (∑ i, resp i j * X i f) / nk j
  let covariances := ctx.estimateGaussCov cfg.covariance_type n resp X nk means cfg.reg_covar
  { weights_ := fun j => nk j / (n : α)
    means_ := means
    covariances_ := covariances
    precisions_cholesky_ := ctx.computePrecisionCholesky covariances cfg.covariance_type }

/-- Modelled from the spec: plain Gaussian-mixture initialisation from given
responsibilities, with the same initial-value overrides. -/
def gmmInitFromResp (ctx : Ctx α μ d k) (cfg : Cfg α μ d k) (X : Mat n d α)
    (resp : Mat n k α) : GmmState α μ d k :=
  let base := gmmStateOfResp ctx cfg X resp
  { weights_ := match cfg.weights_init with | none => base.weights_ | some w => w
    means_ := match cfg.means_init with | none => base.means_ | some mns => mns
    covariances_ := base.covariances_
    precisions_cholesky_ :=
      match cfg.precisions_init with
      | none => base.precisions_cholesky_
      | some pinit =>
        match cfg.covariance_type with
        | .full => ctx.choleskyLower pinit
        | .tied => ctx.choleskyLower pinit
        | _ => pinit }

/-- Modelled from the spec: the plain Gaussian-mixture weighted log
probabilities, Gaussian log-density plus log-weights only. -/
def gmmWeightedLogProb (ctx : Ctx α μ d k) (cfg : Cfg α μ d k)
    (gst : GmmState α μ d k) (X : Mat m d α) : Mat m k α :=
  fun i j =>
    ctx.estimateLogProb m X gst.means_ gst.precisions_cholesky_ cfg.covariance_type i j
      + ctx.lg (gst.weights_ j)

/-- Modelled from the spec: the plain Gaussian-mixture E-step. -/
def gmmEStep (ctx : Ctx α μ d k) (cfg : Cfg α μ d k) (gst : GmmState α μ d k)
    (X : Mat n d α) : α × Mat n k α :=
  let wlp := gmmWeightedLogProb ctx cfg gst X
  let lpn : Fin n → α := fun i => ctx.lg (∑ j, ctx.ex (wlp i j))
  ((∑ i, lpn i) / (n : α), fun i j => wlp i j - lpn i)

/-- Modelled from the spec: the plain Gaussian-mixture M-step. -/
def gmmMStep (ctx : Ctx α μ d k) (cfg : Cfg α μ d k) (X : Mat n d α)
    (log_resp : Mat n k α) : GmmState α μ d k :=
  gmmStateOfResp ctx cfg X (fun i j => ctx.ex (log_resp i j))

/-- Modelled from the spec: outcome of the plain Gaussian-mixture EM loop. -/
structure GmmEMOut (α : Type) (μ : Type) (d k : ℕ) where
  state : GmmState α μ d k
  lb : Option α
  converged : Bool
  n_iter : ℕ
deriving DecidableEq

/-- Modelled from the spec: the plain Gaussian-mixture EM loop with the same
convergence rule. -/
def gmmEmRun (ctx : Ctx α μ d k) (cfg : Cfg α μ d k) (X : Mat n d α) :
    ℕ → ℕ → GmmState α μ d k → Option α → GmmEMOut α μ d k
  | 0, it, gst, lb => ⟨gst, lb, false, it⟩
  | fuel + 1, it, gst, lb =>
    if convergenceBreak lb (gmmEStep ctx cfg gst X).1 cfg.tol then
      ⟨gmmMStep ctx cfg X (gmmEStep ctx cfg gst X).2,
        some (gmmEStep ctx cfg gst X).1, true, it + 1⟩
    else gmmEmRun ctx cfg X fuel (it + 1)
      (gmmMStep ctx cfg X (gmmEStep ctx cfg gst X).2)
      (some (gmmEStep ctx cfg gst X).1)

/-! ## `DominoSDM.__init__` (the orchestrator constructor) -/

/-- The attribute names read or written on `self.config` during
`DominoSDM.__init__` (the base class `Config` is an empty dataclass, so the
attribute set starts empty and grows by assignment). -/
inductive ConfigAttr
  | n_slices | covariance_type | n_pca_components | n_mixture_components
  | init_params | y_log_likelihood_weight | y_hat_log_likelihood_weight
  | max_iter | weight_y_log_likelihood
deriving DecidableEq

/-- A Python attribute store: unset attributes read as `none`. -/
def AttrStore (V : Type) := ConfigAttr → Option V

/-- Model of `setattr`: overwrite one attribute. -/
def setattrC {V : Type} (s : AttrStore V) (a : ConfigAttr) (v : V) : AttrStore V :=
  fun b => if b = a then some v else s b

/-- Model of `getattr`: reading an attribute that was never assigned raises
AttributeError. -/
def getattrC {V : Type} (s : AttrStore V) (a : ConfigAttr) : Except PyErr V :=
  match s a with
  | some v => .ok v
  | none => .error .attributeErr

/-- What a successful `DominoSDM.__init__` would produce: the config store,
the PCA slot, and the five keyword arguments passed to `DominoMixture`. -/
structure SDMInitOut (V : Type) where
  config : AttrStore V
  pca : Option V
  gmmArgs : V × V × V × V × V

/-- Model of `DominoSDM.__init__`: `super().__init__` stores `n_slices` on the config,
the seven constructor options are stored next, the PCA branch reads
`config.n_pca_components`, and building the inner `DominoMixture` reads
`config.n_mixture_components` and then `config.weight_y_log_likelihood` — an
attribute that no statement ever assigned. -/
def dominoSDMInit {V : Type} (isNone : V → Bool)
    (n_slices covariance_type n_pca_components n_mixture_components
      init_params y_w y_hat_w max_iter : V) : Except PyErr (SDMInitOut V) :=
  let c0 : AttrStore V := fun _ => none
  let c1 := setattrC c0 .n_slices n_slices
  let c2 := setattrC c1 .covariance_type covariance_type
  let c3 := setattrC c2 .n_pca_components n_pca_components
  let c4 := setattrC c3 .n_mixture_components n_mixture_components
  let c5 := setattrC c4 .init_params init_params
  let c6 := setattrC c5 .y_log_likelihood_weight y_w
  let c7 := setattrC c6 .y_hat_log_likelihood_weight y_hat_w
  let c8 := setattrC c7 .max_iter max_iter
  match getattrC c8 .n_pca_components with
  | .error e => .error e
  | .ok npca =>
    let pca := if isNone npca then none else some npca
    match getattrC c8 .n_mixture_components with
    | .error e => .error e
    | .ok ncomp =>
      match getattrC c8 .weight_y_log_likelihood with
      | .error e => .error e
      | .ok w =>
        match getattrC c8 .covariance_type, getattrC c8 .init_params,
            getattrC c8 .max_iter with
        | .ok cv, .ok ip, .ok mi => .ok ⟨c8, pca, (ncomp, w, cv, ip, mi)⟩
        | .error e, _, _ => .error e
        | _, .error e, _ => .error e
        | _, _, .error e => .error e

/-! ## Claim theorems -/

/-- C6: for every input, the parameter-estimation kernel returns effective
counts equal to the column sums of the responsibility matrix each incremented
by exactly ten machine epsilons, means equal to the responsibility-weighted
averages of the rows of `X` divided by those counts, and label / predicted
label probability tables equal to the responsibility-weighted averages of the
rows of `y` (resp. `y_hat`) divided by those counts, per component. -/
theorem c6_estimate_parameters_formulas
    (ctx : Ctx α μ d k) (X : Mat n d α) (y : Mat n c α)
    (y_hat : Mat n ch α) (resp : Mat n k α) (reg_covar : α)
    (covT : CovarianceType) :
    (∀ j, (estimateParameters ctx X y y_hat resp reg_covar covT).1 j
        = (∑ i, resp i j) + 10 * ctx.eps) ∧
    (∀ j f, (estimateParameters ctx X y y_hat resp reg_covar covT).2.1 j f
        = (∑ i, resp i j * X i f) / ((∑ i, resp i j) + 10 * ctx.eps)) ∧
    (∀ j l, (estimateParameters ctx X y y_hat resp reg_covar covT).2.2.2.1 j l
        = (∑ i, resp i j * y i l) / ((∑ i, resp i j) + 10 * ctx.eps)) ∧
    (∀ j l, (estimateParameters ctx X y y_hat resp reg_covar covT).2.2.2.2 j l
        = (∑ i, resp i j * y_hat i l) / ((∑ i, resp i j) + 10 * ctx.eps)) :=
  ⟨fun _ => rfl, fun _ _ => rfl, fun _ _ => rfl, fun _ _ => rfl⟩

/-- C9: for every combination of constructor arguments, `DominoSDM.__init__`
raises AttributeError, because it reads `config.weight_y_log_likelihood`
while the constructor only ever assigned `config.y_log_likelihood_weight` and
`config.y_hat_log_likelihood_weight`; no instance can be completed. -/
theorem c9_sdm_init_attribute_error {V : Type} (isNone : V → Bool)
    (a1 a2 a3 a4 a5 a6 a7 a8 : V) :
    dominoSDMInit isNone a1 a2 a3 a4 a5 a6 a7 a8 = .error .attributeErr := rfl

/-- C10: for every fitted estimator, calling `predict_proba` with the
true-label argument present but `y_hat = None` raises AttributeError during
label preprocessing — `_preprocess_ys` inspects `y_hat.shape` whenever `y` is
not `None`, so the two optional arguments cannot be supplied independently. -/
theorem c10_y_without_yhat_raises
    (ctx : Ctx α μ d k) (cfg : Cfg α μ d k) (st : MixState α μ d k c ch)
    (X : Mat m d α) (y : Fin m → ℕ) :
    predictProba ctx cfg st X (some y) none = .error .attributeErr := rfl

/-- C7 (failing input for the claim): with `y = None` and `y_hat` a
one-dimensional probability vector, `_preprocess_ys` returns the vector
unchanged — the `[1-p, p]` expansion is skipped because it sits under the
duplicated `if y is not None:` guard — so `predict_proba(X, None, p)` never
gets a two-column matrix, contradicting the specified expansion. -/
theorem c7_vec_not_expanded_without_y :
    preprocessYs (α := ℚ) (n := 1) none (some (.vec fun _ => 1 / 2))
      = .ok (none, some (.vec fun _ => 1 / 2)) := rfl

/-! ### Argmax commutes with strictly monotone maps -/

lemma argmaxStep_comp (f : α → α) (hf : StrictMono f) (v : Fin k → α)
    (acc : Option (Fin k)) (j : Fin k) :
    argmaxStep (fun j' => f (v j')) acc j = argmaxStep v acc j := by
  cases acc with
  | none => rfl
  | some b => simp only [argmaxStep, hf.lt_iff_lt]

lemma foldl_argmaxStep_comp (f : α → α) (hf : StrictMono f) (v : Fin k → α) :
    ∀ (l : List (Fin k)) (acc : Option (Fin k)),
      l.foldl (argmaxStep (fun j => f (v j))) acc = l.foldl (argmaxStep v) acc := by
  intro l
  induction l with
  | nil => intro acc; rfl
  | cons a l ih => intro acc; simp only [List.foldl_cons, argmaxStep_comp f hf, ih]

lemma npArgmax_comp (f : α → α) (hf : StrictMono f) (v : Fin k → α) :
    npArgmax (fun j => f (v j)) = npArgmax v := by
  unfold npArgmax npArgmaxO
  rw [foldl_argmaxStep_comp f hf]

omit [LinearOrderedField α] in
lemma castMat_self {w : ℕ} (h : w = w) (mm : Mat m w α) : castMat h mm = mm := rfl

/-- C1: whenever `fit_predict` succeeds, the labels it returns are exactly the
row-wise argmax of the responsibility matrix produced by `predict_proba`
called immediately afterwards on the same data: the mandatory final E-step is
computed on the restored best parameters, `predict_proba` recomputes the same
log-responsibilities from the same state, and exponentiation preserves the
(first-index) argmax because `exp` is strictly monotone. -/
theorem c1_fit_predict_argmax_consistency
    (ctx : Ctx α μ d k) (cfg : Cfg α μ d k) (X : Mat n d α)
    (yraw : Fin n → ℕ) (yhraw : RawYHat α n)
    (hmono : StrictMono ctx.ex)
    (out : FitOut α μ n d k (binWidth yraw) (yhWidth yhraw))
    (hfit : fitPredict ctx cfg X yraw yhraw = .ok out)
    (R : Mat n k α)
    (hpred : predictProba ctx cfg out.state X (some yraw) (some yhraw) = .ok R) :
    ∀ i, out.labels i = npArgmax (fun j => R i j) := by
  unfold fitPredict at hfit
  split at hfit
  case isFalse => exact Except.noConfusion hfit
  case isTrue hX =>
    split at hfit
    case isFalse => exact Except.noConfusion hfit
    case isTrue hP =>
      split at hfit
      case h_1 => exact Except.noConfusion hfit
      case h_3 => exact Except.noConfusion hfit
      case h_2 conv maxLB best heq =>
        injection hfit with hfit
        subst hfit
        unfold predictProba at hpred
        simp only [preprocessYs] at hpred
        rw [if_pos (le_trans one_le_two hX.1)] at hpred
        simp only [dif_pos rfl, castMat_self] at hpred
        injection hpred with hpred
        subst hpred
        intro i
        exact (npArgmax_comp ctx.ex hmono
          (fun j => (estimateLogProbResp ctx cfg best.1 X
            (some (binY yraw)) (some (yhExpand yhraw))).2 i j)).symm

/-! ### Rows of the exponentiated log-responsibilities sum to one -/

lemma rowSum_predictProbaCore
    (ctx : Ctx α μ d k) (cfg : Cfg α μ d k) (st : MixState α μ d k c ch)
    (X : Mat m d α) (y? : Option (Mat m c α)) (yh? : Option (Mat m ch α))
    (hk : 0 < k)
    (hdiv : ∀ a b, ctx.ex (a - b) = ctx.ex a / ctx.ex b)
    (hexpos : ∀ a, 0 < ctx.ex a)
    (hlg : ∀ v : Fin k → α, ctx.ex (ctx.lg (∑ j, ctx.ex (v j))) = ∑ j, ctx.ex (v j))
    (i : Fin m) :
    ∑ j, predictProbaCore ctx cfg st X y? yh? i j = 1 := by
  have hne : Nonempty (Fin k) := ⟨⟨0, hk⟩⟩
  set wlp := estimateWeightedLogProb ctx cfg st X y? yh? with hw
  have hS : (0 : α) < ∑ j, ctx.ex (wlp i j) :=
    Finset.sum_pos (fun j _ => hexpos _) Finset.univ_nonempty
  calc ∑ j, predictProbaCore ctx cfg st X y? yh? i j
      = ∑ j, ctx.ex (wlp i j) / ctx.ex (ctx.lg (∑ j', ctx.ex (wlp i j'))) :=
        Finset.sum_congr rfl (fun j _ => hdiv _ _)
    _ = ∑ j, ctx.ex (wlp i j) / (∑ j', ctx.ex (wlp i j')) := by rw [hlg]
    _ = (∑ j, ctx.ex (wlp i j)) / (∑ j', ctx.ex (wlp i j')) := by rw [Finset.sum_div]
    _ = 1 := div_self (ne_of_gt hS)

/-- C2: every row of the responsibility matrix returned by `predict_proba`
sums to exactly 1 (hence within any tolerance): the log-responsibilities are
normalised per sample by log-sum-exp across the components before
exponentiation.  The hypotheses record the algebraic laws of the `exp`/`log`
oracles that the floating-point routines satisfy (up to rounding). -/
theorem c2_predict_proba_rows_sum_to_one
    (ctx : Ctx α μ d k) (cfg : Cfg α μ d k) (st : MixState α μ d k c ch)
    (X : Mat m d α) (y? : Option (Fin m → ℕ)) (yh? : Option (RawYHat α m))
    (hk : 0 < k)
    (hdiv : ∀ a b, ctx.ex (a - b) = ctx.ex a / ctx.ex b)
    (hexpos : ∀ a, 0 < ctx.ex a)
    (hlg : ∀ v : Fin k → α, ctx.ex (ctx.lg (∑ j, ctx.ex (v j))) = ∑ j, ctx.ex (v j))
    (R : Mat m k α) (hpred : predictProba ctx cfg st X y? yh? = .ok R) :
    ∀ i, ∑ j, R i j = 1 := by
  intro i
  unfold predictProba at hpred
  repeat' split at hpred
  all_goals try exact Except.noConfusion hpred
  all_goals obtain rfl := Except.ok.inj hpred
  all_goals exact rowSum_predictProbaCore ctx cfg st X _ _ hk hdiv hexpos hlg i

/-! ### Weight zero: the estimator coincides with the plain Gaussian mixture -/

lemma gaussPart_stateOfResp (ctx : Ctx α μ d k) (cfg : Cfg α μ d k) (X : Mat n d α)
    (y : Mat n c α) (yh : Mat n ch α) (resp : Mat n k α) :
    gaussPart (stateOfResp ctx cfg X y yh resp) = gmmStateOfResp ctx cfg X resp := rfl

lemma gaussPart_initFromResp (ctx : Ctx α μ d k) (cfg : Cfg α μ d k) (X : Mat n d α)
    (y : Mat n c α) (yh : Mat n ch α) (resp : Mat n k α) :
    gaussPart (initFromResp ctx cfg X y yh resp) = gmmInitFromResp ctx cfg X resp := rfl

lemma gaussPart_mStep (ctx : Ctx α μ d k) (cfg : Cfg α μ d k) (X : Mat n d α)
    (y : Mat n c α) (yh : Mat n ch α) (lr : Mat n k α) :
    gaussPart (mStep ctx cfg X y yh lr) = gmmMStep ctx cfg X lr := rfl

lemma weightedLogProb_weight_zero (ctx : Ctx α μ d k) (cfg : Cfg α μ d k)
    (hwz : cfg.weight_y_log_likelihood = 0) (st : MixState α μ d k c ch)
    (X : Mat m d α) (y : Mat m c α) (yh : Mat m ch α) :
    estimateWeightedLogProb ctx cfg st X (some y) (some yh)
      = gmmWeightedLogProb ctx cfg (gaussPart st) X := by
  funext i j
  simp [estimateWeightedLogProb, gmmWeightedLogProb, gaussPart, hwz]

lemma eStep_weight_zero (ctx : Ctx α μ d k) (cfg : Cfg α μ d k)
    (hwz : cfg.weight_y_log_likelihood = 0) (st : MixState α μ d k c ch)
    (X : Mat n d α) (y : Mat n c α) (yh : Mat n ch α) :
    eStep ctx cfg st X y yh = gmmEStep ctx cfg (gaussPart st) X := by
  unfold eStep gmmEStep estimateLogProbResp
  rw [weightedLogProb_weight_zero ctx cfg hwz st X y yh]

lemma emRun_weight_zero (ctx : Ctx α μ d k) (cfg : Cfg α μ d k)
    (hwz : cfg.weight_y_log_likelihood = 0)
    (X : Mat n d α) (y : Mat n c α) (yh : Mat n ch α) :
    ∀ (fuel it : ℕ) (st : MixState α μ d k c ch) (lb : Option α),
      gaussPart (emRun ctx cfg X y yh fuel it st lb).state
          = (gmmEmRun ctx cfg X fuel it (gaussPart st) lb).state
        ∧ (emRun ctx cfg X y yh fuel it st lb).lb
          = (gmmEmRun ctx cfg X fuel it (gaussPart st) lb).lb
        ∧ (emRun ctx cfg X y yh fuel it st lb).converged
          = (gmmEmRun ctx cfg X fuel it (gaussPart st) lb).converged
        ∧ (emRun ctx cfg X y yh fuel it st lb).n_iter
          = (gmmEmRun ctx cfg X fuel it (gaussPart st) lb).n_iter := by
  intro fuel
  induction fuel with
  | zero => intro it st lb; exact ⟨rfl, rfl, rfl, rfl⟩
  | succ f ih =>
    intro it st lb
    simp only [emRun, gmmEmRun, eStep_weight_zero ctx cfg hwz st X y yh]
    split
    · exact ⟨gaussPart_mStep ctx cfg X y yh _, rfl, rfl, rfl⟩
    · have h := ih (it + 1)
        (mStep ctx cfg X y yh (gmmEStep ctx cfg (gaussPart st) X).2)
        (some (gmmEStep ctx cfg (gaussPart st) X).1)
      rw [gaussPart_mStep] at h
      exact h

/-- C5: with the label-likelihood weight set to 0, running the Domino EM
iteration from the parameters initialised from any responsibilities yields,
after any number of iterations, exactly the means and covariances of the
plain embedding-only Gaussian mixture EM started from the same initialization
responsibilities on the same `X` — the two weighted label terms contribute
nothing to the per-sample per-component log-probability, so every E-step and
M-step coincides with the plain Gaussian-mixture one. -/
theorem c5_weight_zero_matches_gmm
    (ctx : Ctx α μ d k) (cfg : Cfg α μ d k)
    (hwz : cfg.weight_y_log_likelihood = 0)
    (X : Mat n d α) (y : Mat n c α) (yh : Mat n ch α)
    (resp : Mat n k α) (fuel it : ℕ) (lb : Option α) :
    (emRun ctx cfg X y yh fuel it (initFromResp ctx cfg X y yh resp) lb).state.means_
        = (gmmEmRun ctx cfg X fuel it (gmmInitFromResp ctx cfg X resp) lb).state.means_
      ∧ (emRun ctx cfg X y yh fuel it (initFromResp ctx cfg X y yh resp) lb).state.covariances_
        = (gmmEmRun ctx cfg X fuel it (gmmInitFromResp ctx cfg X resp) lb).state.covariances_ := by
  have h := (emRun_weight_zero ctx cfg hwz X y yh fuel it
    (initFromResp ctx cfg X y yh resp) lb).1
  rw [gaussPart_initFromResp] at h
  exact ⟨congrArg GmmState.means_ h, congrArg GmmState.covariances_ h⟩

/-! ### Timing of the "error" initialization failure -/

instance {ε β : Type} [DecidableEq ε] [DecidableEq β] : DecidableEq (Except ε β)
  | .error a, .error b =>
    if h : a = b then .isTrue (by rw [h])
    else .isFalse (fun hh => h (Except.error.inj hh))
  | .error _, .ok _ => .isFalse (fun hh => Except.noConfusion hh)
  | .ok _, .error _ => .isFalse (fun hh => Except.noConfusion hh)
  | .ok a, .ok b =>
    if h : a = b then .isTrue (by rw [h])
    else .isFalse (fun hh => h (Except.ok.inj hh))

lemma restartLoop_ne_config (ctx : Ctx α μ d k) (cfg : Cfg α μ d k)
    (X : Mat n d α) (y : Mat n c α) (yh : Mat n ch α)
    (hinit : cfg.init_params = .err) (hkc : ¬ k < c * c) :
    ∀ (fuel t : ℕ) (conv : Bool) (maxLB : Option α)
      (best : Option (MixState α μ d k c ch × ℕ)),
      restartLoop ctx cfg X y yh t fuel conv maxLB best ≠ .error .valueConfig := by
  intro fuel
  induction fuel with
  | zero =>
    intro t conv maxLB best h
    exact Except.noConfusion h
  | succ f ih =>
    intro t conv maxLB best h
    simp only [restartLoop, initRespParams, hinit, if_neg hkc] at h
    split at h
    · rename_i e heq
      rw [Except.error.injEq] at h
      subst h
      split at heq
      · exact Except.noConfusion heq
      · exact PyErr.noConfusion (Except.error.inj heq)
    · split at h
      · exact ih (t + 1) _ _ _ h
      · exact ih (t + 1) _ _ _ h

/-- C4 (amended): when the initialization strategy is "error" and the inputs
pass label preprocessing, input validation and the initial-parameter checks,
`fit_predict` raises the configuration ValueError during the *first parameter
initialization* — i.e. after preprocessing and validation but before any EM
iteration — exactly when `n_components < num_classes ** 2`; when
`n_components ≥ num_classes ** 2` that configuration error is not raised
(though the error-driven tiling may still fail with a different, broadcast
ValueError when `y_hat` has fewer columns than `y`). -/
theorem c4_amended_config_error_timing
    (ctx : Ctx α μ d k) (cfg : Cfg α μ d k) (X : Mat n d α)
    (yraw : Fin n → ℕ) (yhraw : RawYHat α n)
    (hX : checkXOk n k) (hP : checkInitialParams ctx cfg = true)
    (hni : 1 ≤ cfg.n_init) (hinit : cfg.init_params = .err) :
    (k < binWidth yraw * binWidth yraw →
        fitPredict ctx cfg X yraw yhraw = .error .valueConfig) ∧
    (binWidth yraw * binWidth yraw ≤ k →
        fitPredict ctx cfg X yraw yhraw ≠ .error .valueConfig) := by
  constructor
  · intro hlt
    obtain ⟨f, hf⟩ : ∃ f, cfg.n_init = f + 1 := ⟨cfg.n_init - 1, by omega⟩
    unfold fitPredict
    rw [if_pos hX, if_pos hP, hf]
    simp only [restartLoop, initRespParams, hinit, if_pos hlt]
  · intro hge hcontra
    unfold fitPredict at hcontra
    rw [if_pos hX, if_pos hP] at hcontra
    split at hcontra
    · rename_i e heq
      rw [Except.error.injEq] at hcontra
      subst hcontra
      exact restartLoop_ne_config ctx cfg X (binY yraw) (yhExpand yhraw)
        hinit (not_lt.mpr hge) cfg.n_init 0 false none none heq
    · exact Except.noConfusion hcontra
    · exact PyErr.noConfusion (Except.error.inj hcontra)

/-! ### One mixture component: responsibilities are identically one -/

lemma logResp_one_component (ctx : Ctx α μ d 1) (cfg : Cfg α μ d 1)
    (hlgex : ∀ x, ctx.lg (ctx.ex x) = x) (st : MixState α μ d 1 c ch)
    (X : Mat n d α) (y : Mat n c α) (yh : Mat n ch α) :
    (eStep ctx cfg st X y yh).2 = fun _ _ => 0 := by
  funext i j
  show (estimateLogProbResp ctx cfg st X (some y) (some yh)).2 i j = 0
  have hj : j = 0 := Subsingleton.elim j 0
  subst hj
  simp [estimateLogProbResp, Fin.sum_univ_one, hlgex]

lemma mStep_zero_logresp (ctx : Ctx α μ d k) (cfg : Cfg α μ d k)
    (hex0 : ctx.ex 0 = 1) (X : Mat n d α) (y : Mat n c α) (yh : Mat n ch α) :
    mStep ctx cfg X y yh (fun _ _ => 0) = stateOfResp ctx cfg X y yh (fun _ _ => 1) := by
  unfold mStep
  congr 1
  funext i j
  exact hex0

lemma initFromResp_no_overrides (ctx : Ctx α μ d k) (cfg : Cfg α μ d k)
    (hw : cfg.weights_init = none) (hm : cfg.means_init = none)
    (hp : cfg.precisions_init = none) (X : Mat n d α) (y : Mat n c α)
    (yh : Mat n ch α) (resp : Mat n k α) :
    initFromResp ctx cfg X y yh resp = stateOfResp ctx cfg X y yh resp := by
  unfold initFromResp
  rw [hw, hm, hp]

/-- C8 (amended): with a single mixture component (and no initial-value
overrides) every log-responsibility is 0, so the M-step reproduces the
parameters computed at initialisation from the all-ones responsibilities;
the lower bound is therefore unchanged between iterations 1 and 2 and the EM
loop sets the convergence flag on the *second* iteration (`n_iter_ = 2`),
provided `max_iter ≥ 2` and the tolerance is positive — the first iteration
can never trigger the break because its change is infinite (the bound starts
at `-np.infty`). -/
theorem c8_amended_two_iterations
    (ctx : Ctx α μ d 1) (cfg : Cfg α μ d 1)
    (hlgex : ∀ x, ctx.lg (ctx.ex x) = x) (hex0 : ctx.ex 0 = 1)
    (hw : cfg.weights_init = none) (hm : cfg.means_init = none)
    (hp : cfg.precisions_init = none)
    (htol : 0 < cfg.tol) (hmi : 2 ≤ cfg.max_iter)
    (X : Mat n d α) (y : Mat n c α) (yh : Mat n ch α) :
    (emRun ctx cfg X y yh cfg.max_iter 0
        (initFromResp ctx cfg X y yh (fun _ _ => 1)) none).converged = true
      ∧ (emRun ctx cfg X y yh cfg.max_iter 0
        (initFromResp ctx cfg X y yh (fun _ _ => 1)) none).n_iter = 2 := by
  obtain ⟨f, hf⟩ : ∃ f, cfg.max_iter = f + 2 := ⟨cfg.max_iter - 2, by omega⟩
  rw [hf]
  set st0 := initFromResp ctx cfg X y yh (fun _ _ => (1 : α)) with hst0
  have h1 : emRun ctx cfg X y yh (f + 2) 0 st0 none
      = emRun ctx cfg X y yh (f + 1) 1
          (mStep ctx cfg X y yh (eStep ctx cfg st0 X y yh).2)
          (some (eStep ctx cfg st0 X y yh).1) := rfl
  have hst1 : mStep ctx cfg X y yh (eStep ctx cfg st0 X y yh).2 = st0 := by
    rw [logResp_one_component ctx cfg hlgex st0 X y yh,
      mStep_zero_logresp ctx cfg hex0 X y yh, hst0,
      initFromResp_no_overrides ctx cfg hw hm hp X y yh]
  have h2 : convergenceBreak (some (eStep ctx cfg st0 X y yh).1)
      (eStep ctx cfg st0 X y yh).1 cfg.tol = true := by
    simp [convergenceBreak, sub_self, abs_zero, htol]
  rw [h1, hst1]
  simp [emRun, h2]

/-! ### Concrete rational instances for witnesses and counterexamples -/

/-- A rational context with identity `exp`/`log` oracles and trivial library
oracles (covariance data collapsed to `Unit`). -/
def ctxQ (kk : ℕ) : Ctx ℚ Unit 1 (kk + 1) where
  ex := id
  lg := id
  eps := 0
  rand := fun _ _ => fun _ _ => 1
  kmeansLabels := fun _ _ _ => 0
  estimateGaussCov := fun _ _ _ _ _ _ _ => ()
  computePrecisionCholesky := fun _ _ => ()
  choleskyLower := fun _ => ()
  estimateLogProb := fun _ _ _ _ _ => fun _ _ => 0
  checkPrecisions := fun _ _ => true

/-- A rational context whose `exp`/`log` oracles are the mutually inverse
shift maps `x + 1` / `x - 1` (so `log (exp x) = x` and `exp 0 = 1`). -/
def ctxShift : Ctx ℚ Unit 1 1 where
  ex := fun x => x + 1
  lg := fun x => x - 1
  eps := 0
  rand := fun _ _ => fun _ _ => 1
  kmeansLabels := fun _ _ _ => 0
  estimateGaussCov := fun _ _ _ _ _ _ _ => ()
  computePrecisionCholesky := fun _ _ => ()
  choleskyLower := fun _ => ()
  estimateLogProb := fun _ _ _ _ _ => fun _ _ => 0
  checkPrecisions := fun _ _ => true

/-- A rational context with constant `exp ≡ 1`, which satisfies the quotient
law `exp (a - b) = exp a / exp b` and positivity. -/
def ctxOne : Ctx ℚ Unit 1 1 where
  ex := fun _ => 1
  lg := id
  eps := 0
  rand := fun _ _ => fun _ _ => 1
  kmeansLabels := fun _ _ _ => 0
  estimateGaussCov := fun _ _ _ _ _ _ _ => ()
  computePrecisionCholesky := fun _ _ => ()
  choleskyLower := fun _ => ()
  estimateLogProb := fun _ _ _ _ _ => fun _ _ => 0
  checkPrecisions := fun _ _ => true

def cfgC4 : Cfg ℚ Unit 1 3 := ⟨.diag, .err, 1, 0, 1, 100, 1, none, none, none⟩

def cfgC8 : Cfg ℚ Unit 1 1 := ⟨.diag, .rand, 1, 0, 1, 1, 1, none, none, none⟩

def cfgW8 : Cfg ℚ Unit 1 1 := ⟨.diag, .rand, 1, 0, 1, 2, 1, none, none, none⟩

def cfgZ5 : Cfg ℚ Unit 1 1 := ⟨.diag, .rand, 0, 0, 1, 1, 1, none, none, none⟩

def X1 : Mat 1 1 ℚ := fun _ _ => 0

def X2 : Mat 2 1 ℚ := fun _ _ => 0

def X3 : Mat 3 1 ℚ := fun _ _ => 0

def yBin : Fin 2 → ℕ := fun i => (i : ℕ)

def yC4 : Fin 3 → ℕ := fun i => if i = 1 then 1 else 0

def yHalf : Mat 2 2 ℚ := fun _ _ => 1 / 2

def yhV : RawYHat ℚ 2 := .vec fun _ => 1 / 2

def rOne : Mat 1 1 ℚ := fun _ _ => 1

def stZ : MixState ℚ Unit 1 1 1 1 := ⟨fun _ => 0, fun _ _ => 0, (), fun _ _ => 0, fun _ _ => 0, ()⟩

def fitFallback : FitOut ℚ Unit 2 1 1 (binWidth yBin) (yhWidth yhV) :=
  ⟨fun _ => 0, ⟨fun _ => 0, fun _ _ => 0, (), fun _ _ => 0, fun _ _ => 0, ()⟩,
    false, 0, none⟩

/-- The concrete result of the witness fit (the fallback branch is never
taken: the fit succeeds, see `c1_witness`). -/
def outW : FitOut ℚ Unit 2 1 1 (binWidth yBin) (yhWidth yhV) :=
  match fitPredict (ctxQ 0) cfgC8 X2 yBin yhV with
  | .ok o => o
  | .error _ => fitFallback

/-- The concrete responsibility matrix returned by the witness
`predict_proba` call (again the fallback branch is never taken). -/
def rPred : Mat 2 1 ℚ :=
  match predictProba (ctxQ 0) cfgC8 outW.state X2 (some yBin) (some yhV) with
  | .ok R => R
  | .error _ => fun _ _ => 0

/-- The `converged_` attribute of a completed fit, if the fit completed. -/
def convergedOfFit {nn dd kk cc cch : ℕ} :
    Except PyErr (FitOut ℚ Unit nn dd kk cc cch) → Option Bool
  | .ok o => some o.converged_
  | .error _ => none

/-! ### Counterexamples and witnesses -/

/-- C4 (counterexample to the claim as stated): a configuration in which the
"error"-initialization precondition is violated (`n_components = 3 < 4 =
num_classes ** 2`) but the input also fails validation (a single sample);
`fit_predict` raises the *validation* error, not the configuration error, so
the configuration error is not raised before input validation. -/
theorem c4_counterexample :
    fitPredict (ctxQ 2) cfgC4 X1 (fun _ => 0) (.vec fun _ => 1 / 2)
        = .error .valueValidation
      ∧ fitPredict (ctxQ 2) cfgC4 X1 (fun _ => 0) (.vec fun _ => 1 / 2)
        ≠ .error .valueConfig := by
  exact ⟨rfl, by decide⟩

/-- C4 (witness): the amended theorem applied to a concrete configuration
with 3 components and 2 classes. -/
theorem c4_witness :
    fitPredict (ctxQ 2) cfgC4 X3 yC4 (.vec fun _ => 1 / 2) = .error .valueConfig :=
  (c4_amended_config_error_timing (ctxQ 2) cfgC4 X3 yC4 (.vec fun _ => 1 / 2)
    (by decide) (by decide) (by decide) rfl).1 (by decide)

/-- C8 (counterexample to the claim as stated): a single-component fit with
`max_iter = 1`: the EM loop executes its one permitted iteration, whose
change test compares against the initial `-np.infty` bound and fails, so the
convergence flag is `False` after fitting — it was not set on the first
iteration. -/
theorem c8_counterexample :
    convergedOfFit (fitPredict (ctxQ 0) cfgC8 X2 yBin yhV) = some false := by
  decide

/-- C8 (witness): the amended theorem applied to a concrete single-component
configuration with `max_iter = 2`. -/
theorem c8_witness :
    (emRun ctxShift cfgW8 X2 yHalf yHalf cfgW8.max_iter 0
        (initFromResp ctxShift cfgW8 X2 yHalf yHalf (fun _ _ => 1)) none).converged = true
      ∧ (emRun ctxShift cfgW8 X2 yHalf yHalf cfgW8.max_iter 0
        (initFromResp ctxShift cfgW8 X2 yHalf yHalf (fun _ _ => 1)) none).n_iter = 2 :=
  c8_amended_two_iterations ctxShift cfgW8
    (fun x => by show x + 1 - 1 = x; ring)
    (by show (0 : ℚ) + 1 = 1; norm_num)
    rfl rfl rfl (by decide) (by decide) X2 yHalf yHalf

/-- C1 (witness): a complete concrete fit followed by `predict_proba` on the
same data; the returned label is the argmax of the returned responsibility
row. -/
theorem c1_witness :
    (fitPredict (ctxQ 0) cfgC8 X2 yBin yhV = Except.ok outW)
      ∧ outW.labels 0 = npArgmax (fun j => rPred 0 j) :=
  ⟨rfl,
    c1_fit_predict_argmax_consistency (ctxQ 0) cfgC8 X2 yBin yhV
      strictMono_id outW rfl rPred rfl 0⟩

/-- C2 (witness): a concrete `predict_proba` call whose returned first row
sums to 1, obtained from the row-sum theorem. -/
theorem c2_witness : ∑ j, rOne 0 j = 1 :=
  c2_predict_proba_rows_sum_to_one ctxOne cfgC8 stZ X1 none none (by decide)
    (fun a b => by show (1 : ℚ) = 1 / 1; norm_num)
    (fun a => by show (0 : ℚ) < 1; norm_num)
    (fun v => by show (1 : ℚ) = ∑ _j : Fin 1, (1 : ℚ); simp)
    rOne rfl 0

/-- C5 (witness): the weight-zero theorem applied to a concrete
configuration. -/
theorem c5_witness :
    ((emRun (ctxQ 0) cfgZ5 X2 yHalf yHalf 1 0
        (initFromResp (ctxQ 0) cfgZ5 X2 yHalf yHalf (fun _ _ => 1)) none).state.means_
      = (gmmEmRun (ctxQ 0) cfgZ5 X2 1 0
        (gmmInitFromResp (ctxQ 0) cfgZ5 X2 (fun _ _ => 1)) none).state.means_)
      ∧ ((emRun (ctxQ 0) cfgZ5 X2 yHalf yHalf 1 0
        (initFromResp (ctxQ 0) cfgZ5 X2 yHalf yHalf (fun _ _ => 1)) none).state.covariances_
      = (gmmEmRun (ctxQ 0) cfgZ5 X2 1 0
        (gmmInitFromResp (ctxQ 0) cfgZ5 X2 (fun _ _ => 1)) none).state.covariances_) :=
  c5_weight_zero_matches_gmm (ctxQ 0) cfgZ5 rfl X2 yHalf yHalf (fun _ _ => 1) 1 0 none

end Domino
